import Mathlib

/-!
Shallow embedding of the Bikers_Map route-selection and waypoint-planning core
(`config.py`, `route_selector.py`, `waypoint_planner.py`).

Numbers are modelled by `ℚ` (exact rational arithmetic in place of IEEE floats;
all quantities the claims touch are produced by `+ - * / min floor`-style
operations, which are exact here).  Fallible Python code (raising exceptions)
is modelled with `Except Err`.  The transcendental functions used by the
geodesy code (`sin`, `cos`, `asin`, `atan2`, `radians`, `degrees`) are
abstracted as a `TrigModel` parameter: every theorem about the geometry is
proved for an arbitrary model, and counterexamples instantiate a concrete
model that agrees with real trigonometry at the evaluated points.
-/

namespace BikersMap

/-- Python exception classes that the embedded code can raise. -/
inductive Err where
  /-- `ValueError("Distance must be positive")` from `get_max_distance_ratio`. -/
  | invalidInput : Err
  /-- `ZeroDivisionError` from a division by zero. -/
  | zeroDivision : Err
  /-- `ValueError` from `min()` applied to an empty sequence. -/
  | emptySequence : Err
  /-- `Exception("No baseline routes returned by Directions API")`. -/
  | noRoutes : Err
  /-- A transport/provider failure raised inside the routing oracle. -/
  | oracleFailure : Err
deriving DecidableEq, Repr

/-- A raw route record as returned by `google_maps_client.get_routes`
(`distance`, `duration`, `duration_in_traffic` keys).  The optional
`stress?`/`cost?` fields model the `"stress"`/`"cost"` dictionary keys that
`select_best_route` attaches in place (absent on raw oracle output). -/
structure Route where
  distance : ℚ
  duration : ℚ
  duration_in_traffic : ℚ
  stress? : Option ℚ := none
  cost? : Option ℚ := none
deriving DecidableEq, Repr

/-- A scored route record `{**r, "stress": stress, "cost": stress}` as built
afresh by `_best_under_limit` and by the planner's baseline fallback. -/
structure ScoredRoute where
  distance : ℚ
  duration : ℚ
  duration_in_traffic : ℚ
  stress : ℚ
  cost : ℚ
deriving DecidableEq, Repr

/-- `route_selector.STRESS_EPSILON = 1e-3`. -/
def STRESS_EPSILON : ℚ := 1 / 1000

/-- `route_selector.compute_stress(duration, duration_in_traffic)`:
`return duration_in_traffic / duration` — no validation; Python raises
`ZeroDivisionError` when `duration == 0` and otherwise just divides. -/
def compute_stress (duration duration_in_traffic : ℚ) : Except Err ℚ :=
  if duration = 0 then .error .zeroDivision else .ok (duration_in_traffic / duration)

/-- `route_selector.compute_cost(distance, stress)`: legacy helper, `return stress`. -/
def compute_cost (_distance stress : ℚ) : ℚ := stress

/-- `route_selector._is_better(stress_a, distance_a, stress_b, distance_b, eps)`.
Every call site in the repository uses the default `eps=STRESS_EPSILON`. -/
def is_better (stress_a distance_a stress_b distance_b eps : ℚ) : Bool :=
  if stress_a < stress_b - eps then true
  else if |stress_a - stress_b| ≤ eps ∧ distance_a < distance_b then true
  else false

/-- `config.get_max_distance_ratio(distance)`: tiered detour-ratio policy,
raising `ValueError` on non-positive input. -/
def get_max_distance_ratio (distance : ℚ) : Except Err ℚ :=
  if distance ≤ 0 then .error .invalidInput
  else if distance ≤ 5 then .ok 2
  else if distance ≤ 10 then .ok (17 / 10)
  else .ok (3 / 2)

/-- Python `min(route["distance"] for route in routes)` on a non-empty list
(the empty case is handled separately at each call site, mirroring the
`ValueError` that `min` raises there). -/
def min_distance (r : Route) (rs : List Route) : ℚ :=
  rs.foldl (fun m x => min m x.distance) r.distance

/-- The `_is_better` fold step of `select_best_route` against the running
best triple `(best_stress, best_distance, best_route)`.  These three
variables start at `float("inf"), float("inf"), None`, modelled by `none`:
`_is_better(stress, distance, inf, inf)` is true for any finite stress, so
the first scored route always replaces the initial best. -/
def select_step_best (stress : ℚ) (r' : Route) :
    Option (ℚ × ℚ × Route) → Option (ℚ × ℚ × Route)
  | none => some (stress, r'.distance, r')
  | some (bs, bd, br) =>
    if is_better stress r'.distance bs bd STRESS_EPSILON then
      some (stress, r'.distance, r')
    else some (bs, bd, br)

/-- One iteration of the `for route in routes` loop body of
`select_best_route`: skip routes over the limit unmodified; otherwise attach
`stress`/`cost` in place and fold with `_is_better` against the running
best. -/
def select_loop (max_allowed : ℚ) :
    List Route → Option (ℚ × ℚ × Route) → Except Err (List Route × Option Route)
  | [], best => .ok ([], best.map fun b => b.2.2)
  | r :: rs, best =>
    if r.distance > max_allowed then
      match select_loop max_allowed rs best with
      | .error e => .error e
      | .ok (out, b) => .ok (r :: out, b)
    else
      match compute_stress r.duration r.duration_in_traffic with
      | .error e => .error e
      | .ok stress =>
        let r' : Route := { r with stress? := some stress, cost? := some stress }
        match select_loop max_allowed rs (select_step_best stress r' best) with
        | .error e => .error e
        | .ok (out, b) => .ok (r' :: out, b)

/-- `route_selector.select_best_route(routes)`.  Returns the route list after
the in-place `"stress"`/`"cost"` mutations together with the selected best
route (`none` = Python `None`). -/
def select_best_route (routes : List Route) : Except Err (List Route × Option Route) :=
  match routes with
  | [] => .error .emptySequence
  | r :: rs =>
    let shortest := min_distance r rs
    match get_max_distance_ratio (shortest / 1000) with
    | .error e => .error e
    | .ok ratio => select_loop (shortest * ratio) (r :: rs) none

/-- Abstract model of the transcendental functions from Python's `math`
module used by `waypoint_planner.py`.  Theorems over an arbitrary
`TrigModel` hold in particular for the intended real-trigonometry
interpretation; concrete instantiations are used for evaluation. -/
structure TrigModel where
  sin : ℚ → ℚ
  cos : ℚ → ℚ
  asin : ℚ → ℚ
  atan2 : ℚ → ℚ → ℚ
  radians : ℚ → ℚ
  degrees : ℚ → ℚ

/-- Python's float `%` operator: `x % y = x - y * floor(x / y)`
(result has the sign of the divisor). -/
def pymod (x y : ℚ) : ℚ := x - y * ⌊x / y⌋

/-- `waypoint_planner._bearing_deg(lat1, lng1, lat2, lng2)`:
initial spherical bearing, normalized by `(brng + 360.0) % 360.0`. -/
def bearing_deg (T : TrigModel) (lat1 lng1 lat2 lng2 : ℚ) : ℚ :=
  let phi1 := T.radians lat1
  let phi2 := T.radians lat2
  let d_lambda := T.radians (lng2 - lng1)
  let y := T.sin d_lambda * T.cos phi2
  let x := T.cos phi1 * T.sin phi2 - T.sin phi1 * T.cos phi2 * T.cos d_lambda
  let brng := T.degrees (T.atan2 y x)
  pymod (brng + 360) 360

/-- `waypoint_planner._destination_point(lat, lng, bearing_deg, distance_m)`:
spherical projection with Earth radius `6371000.0`; the returned longitude is
`((degrees(lambda2) + 540.0) % 360.0) - 180.0`. -/
def destination_point (T : TrigModel) (lat lng bearing distance_m : ℚ) : ℚ × ℚ :=
  let R : ℚ := 6371000
  let delta := distance_m / R
  let theta := T.radians bearing
  let phi1 := T.radians lat
  let lambda1 := T.radians lng
  let sin_phi2 := T.sin phi1 * T.cos delta + T.cos phi1 * T.sin delta * T.cos theta
  let phi2 := T.asin sin_phi2
  let y := T.sin theta * T.sin delta * T.cos phi1
  let x := T.cos delta - T.sin phi1 * T.sin phi2
  let lambda2 := lambda1 + T.atan2 y x
  (T.degrees phi2, pymod (T.degrees lambda2 + 540) 360 - 180)

/-- `waypoint_planner._candidate_circle_points(origin, destination, radius_m,
num_points, heading_spread_deg)`: candidate waypoints on a circle around the
origin, biased toward the destination bearing. -/
def candidate_circle_points (T : TrigModel) (origin dest : ℚ × ℚ)
    (radius_m : ℚ) (num_points : ℕ) (heading_spread_deg : ℚ) : List (ℚ × ℚ) :=
  let base_bearing := bearing_deg T origin.1 origin.2 dest.1 dest.2
  let bearings :=
    if num_points ≤ 1 then [base_bearing]
    else
      let start := base_bearing - heading_spread_deg / 2
      let step := heading_spread_deg / ((num_points : ℚ) - 1)
      (List.range num_points).map fun i : ℕ => start + (i : ℚ) * step
  bearings.map fun b => destination_point T origin.1 origin.2 b radius_m

/-- Rounding to 6 decimal places, used to model the decimal formatting of
`_format_latlng` (the tie-breaking mode of Python's `:.6f` is immaterial
here: tokens are only ever passed opaquely to the routing oracle). -/
def round6 (x : ℚ) : ℚ := (⌊x * 1000000 + 1 / 2⌋ : ℚ) / 1000000

/-- `waypoint_planner._format_latlng(lat, lng)`: the `"lat,lng"` token with 6
decimal digits, modelled as the pair of its two rounded coordinates. -/
def format_latlng (lat lng : ℚ) : ℚ × ℚ := (round6 lat, round6 lng)

/-- The routing oracle (`google_maps_client.get_routes` with fixed origin and
destination): `none` is the baseline call without waypoints, `some ws` a call
with the waypoint token list `ws` (a non-empty token list is serialized, so it
is never coalesced back to the no-waypoint form). -/
def Oracle : Type := Option (List (ℚ × ℚ)) → Except Err (List Route)

/-- The `_is_better` fold step of `_best_under_limit`: on a win the fresh
scored record `{**r, "stress": stress, "cost": stress}` becomes the running
best (`none` models the initial `best = None` with infinite
`best_stress`/`best_distance`, against which `_is_better` is always true). -/
def bul_step_best (stress : ℚ) (r : Route) :
    Option ScoredRoute → Option ScoredRoute
  | none => some ⟨r.distance, r.duration, r.duration_in_traffic, stress, stress⟩
  | some b =>
    if is_better stress r.distance b.stress b.distance STRESS_EPSILON then
      some ⟨r.distance, r.duration, r.duration_in_traffic, stress, stress⟩
    else some b

/-- The `for r in routes` loop of `waypoint_planner._best_under_limit`,
threading the route list through to make explicit that the loop only reads
the input routes (it never writes into them). -/
def bul_loop (max_allowed : ℚ) :
    List Route → Option ScoredRoute → Except Err (List Route × Option ScoredRoute)
  | [], best => .ok ([], best)
  | r :: rs, best =>
    if r.distance > max_allowed then
      match bul_loop max_allowed rs best with
      | .error e => .error e
      | .ok (out, b) => .ok (r :: out, b)
    else
      match compute_stress r.duration r.duration_in_traffic with
      | .error e => .error e
      | .ok stress =>
        match bul_loop max_allowed rs (bul_step_best stress r best) with
        | .error e => .error e
        | .ok (out, b) => .ok (r :: out, b)

/-- `waypoint_planner._best_under_limit(routes)` (closing over the
baseline-derived `max_allowed_distance`). -/
def best_under_limit (max_allowed : ℚ) (routes : List Route) :
    Except Err (Option ScoredRoute) :=
  match bul_loop max_allowed routes none with
  | .error e => .error e
  | .ok (_, b) => .ok b

/-- Python `min(baseline_routes, key=lambda x: x["distance"])`: the first
route attaining the minimum distance (`ValueError` on an empty sequence). -/
def pymin_by_distance : List Route → Except Err Route
  | [] => .error .emptySequence
  | r :: rs => .ok (rs.foldl (fun m x => if x.distance < m.distance then x else m) r)

/-- Baseline selection of `plan_relaxed_route_with_waypoints`:
`current_best = _best_under_limit(baseline_routes)`, falling back to the
shortest baseline route (with its stress attached) when that is `None`. -/
def baseline_current_best (max_allowed : ℚ) (baseline : List Route) :
    Except Err ScoredRoute :=
  match best_under_limit max_allowed baseline with
  | .error e => .error e
  | .ok (some b) => .ok b
  | .ok none =>
    match pymin_by_distance baseline with
    | .error e => .error e
    | .ok r =>
      match compute_stress r.duration r.duration_in_traffic with
      | .error e => .error e
      | .ok stress => .ok ⟨r.distance, r.duration, r.duration_in_traffic, stress, stress⟩

/-- The `for (lat, lng) in candidates` loop of one search round.  The
source's `improved` / `best_candidate` / `best_candidate_waypoints`
variables are always assigned together, so they are carried as one optional
tracker (`improved == track.isSome`); `best` is the mutable `current_best`,
updated in place whenever a trial wins the `_is_better` comparison. -/
def scan_candidates (oracle : Oracle) (max_allowed : ℚ) (chosen : List (ℚ × ℚ)) :
    List (ℚ × ℚ) → ScoredRoute → Option ((ℚ × ℚ) × List (ℚ × ℚ)) →
    Except Err (ScoredRoute × Option ((ℚ × ℚ) × List (ℚ × ℚ)))
  | [], best, track => .ok (best, track)
  | c :: cs, best, track =>
    let wp := format_latlng c.1 c.2
    let trial_waypoints := chosen ++ [wp]
    match oracle (some trial_waypoints) with
    | .error e => .error e
    | .ok trial_routes =>
      match best_under_limit max_allowed trial_routes with
      | .error e => .error e
      | .ok none => scan_candidates oracle max_allowed chosen cs best track
      | .ok (some tb) =>
        if is_better tb.stress tb.distance best.stress best.distance STRESS_EPSILON then
          scan_candidates oracle max_allowed chosen cs tb (some (c, trial_waypoints))
        else
          scan_candidates oracle max_allowed chosen cs best track

/-- The `for _ in range(max_waypoints)` loop of
`plan_relaxed_route_with_waypoints`: each round scans a fresh candidate
circle around the pivot; if no candidate improved the round breaks,
otherwise the tracked candidate's waypoints and position are accepted. -/
def search_rounds (T : TrigModel) (oracle : Oracle) (max_allowed radius_m : ℚ)
    (num_points : ℕ) (spread : ℚ) (dest : ℚ × ℚ) :
    ℕ → List (ℚ × ℚ) → (ℚ × ℚ) → ScoredRoute →
    Except Err (List (ℚ × ℚ) × ScoredRoute)
  | 0, chosen, _, best => .ok (chosen, best)
  | n + 1, chosen, pivot, best =>
    let candidates := candidate_circle_points T pivot dest radius_m num_points spread
    match scan_candidates oracle max_allowed chosen candidates best none with
    | .error e => .error e
    | .ok (best', none) => .ok (chosen, best')
    | .ok (best', some (c, w)) =>
      search_rounds T oracle max_allowed radius_m num_points spread dest n w c best'

/-- The record returned by `plan_relaxed_route_with_waypoints`: the selected
route augmented with the `"waypoints"`, `"max_allowed_distance"` and
`"shortest_distance"` keys. -/
structure PlanResult where
  best : ScoredRoute
  waypoints : List (ℚ × ℚ)
  max_allowed_distance : ℚ
  shortest_distance : ℚ
deriving DecidableEq, Repr

/-- `waypoint_planner.plan_relaxed_route_with_waypoints`, parametrized by the
trigonometry model and the routing oracle (origin/destination strings are
fixed inside the oracle closure; they are only forwarded verbatim). -/
def plan_relaxed_route_with_waypoints (T : TrigModel) (oracle : Oracle)
    (origin_latlng destination_latlng : ℚ × ℚ) (circle_radius_m : ℚ)
    (candidates_per_step : ℕ) (heading_spread_deg : ℚ) (max_waypoints : ℕ) :
    Except Err PlanResult :=
  match oracle none with
  | .error e => .error e
  | .ok [] => .error .noRoutes
  | .ok (r :: rs) =>
    let shortest := min_distance r rs
    match get_max_distance_ratio (shortest / 1000) with
    | .error e => .error e
    | .ok ratio =>
      let max_allowed := shortest * ratio
      match baseline_current_best max_allowed (r :: rs) with
      | .error e => .error e
      | .ok current0 =>
        match search_rounds T oracle max_allowed circle_radius_m
            candidates_per_step heading_spread_deg destination_latlng
            max_waypoints [] origin_latlng current0 with
        | .error e => .error e
        | .ok (chosen, best) => .ok ⟨best, chosen, max_allowed, shortest⟩

/-! ## Helper lemmas -/

lemma pymod_nonneg (x y : ℚ) (hy : 0 < y) : 0 ≤ pymod x y := by
  unfold pymod
  have h : (⌊x / y⌋ : ℚ) ≤ x / y := Int.floor_le (x / y)
  have h2 : y * (⌊x / y⌋ : ℚ) ≤ y * (x / y) := mul_le_mul_of_nonneg_left h hy.le
  have h3 : y * (x / y) = x := by field_simp
  linarith

lemma pymod_lt (x y : ℚ) (hy : 0 < y) : pymod x y < y := by
  unfold pymod
  have h : x / y < (⌊x / y⌋ : ℚ) + 1 := Int.lt_floor_add_one (x / y)
  have h2 : y * (x / y) < y * ((⌊x / y⌋ : ℚ) + 1) := mul_lt_mul_of_pos_left h hy
  have h3 : y * (x / y) = x := by field_simp
  nlinarith

lemma pymod_sub_180_range (e : ℚ) :
    -180 ≤ pymod e 360 - 180 ∧ pymod e 360 - 180 < 180 := by
  have h1 := pymod_nonneg e 360 (by norm_num)
  have h2 := pymod_lt e 360 (by norm_num)
  constructor <;> linarith

/-- A concrete trigonometry model used for evaluation.  It agrees with real
trigonometry at every point visited by the evaluations below:
`sin 0 = 0`, `cos 0 = 1`, `asin 0 = 0`, `atan2 0 1 = 0`, and
`degrees (radians x) = x`. -/
def idTrig : TrigModel :=
  ⟨fun _ => 0, fun _ => 1, fun _ => 0, fun _ _ => 0, fun x => x, fun x => x⟩

/-! ## C4: distance-ratio policy -/

/-- C4: for every `distanceKm > 0`, `get_max_distance_ratio` follows the
tiers `≤5 → 2.0`, `≤10 → 1.7`, `>10 → 1.5`; it only takes values in
`{2.0, 1.7, 1.5}` and is non-increasing; for `distanceKm ≤ 0` it fails with
`InvalidInput` (`ValueError`). -/
theorem get_max_distance_ratio_spec :
    (∀ d : ℚ, 0 < d → get_max_distance_ratio d =
      .ok (if d ≤ 5 then 2 else if d ≤ 10 then 17 / 10 else 3 / 2)) ∧
    (∀ d : ℚ, d ≤ 0 → get_max_distance_ratio d = .error .invalidInput) ∧
    (∀ d v : ℚ, 0 < d → get_max_distance_ratio d = .ok v →
      v = 2 ∨ v = 17 / 10 ∨ v = 3 / 2) ∧
    (∀ d e v w : ℚ, 0 < d → d ≤ e →
      get_max_distance_ratio d = .ok v → get_max_distance_ratio e = .ok w →
      w ≤ v) := by
  refine ⟨?_, ?_, ?_, ?_⟩
  · intro d hd
    simp only [get_max_distance_ratio]
    rw [if_neg (by linarith)]
    split_ifs <;> rfl
  · intro d hd
    simp only [get_max_distance_ratio]
    rw [if_pos hd]
  · intro d v hd hv
    simp only [get_max_distance_ratio] at hv
    rw [if_neg (by linarith)] at hv
    split_ifs at hv <;> cases hv <;> tauto
  · intro d e v w hd hde hv hw
    simp only [get_max_distance_ratio] at hv hw
    rw [if_neg (by linarith)] at hv
    rw [if_neg (by linarith)] at hw
    split_ifs at hv hw <;> cases hv <;> cases hw <;>
      (try push_neg at *) <;> linarith

theorem get_max_distance_ratio_spec_witness :
    get_max_distance_ratio (-3) = .error .invalidInput ∧
    get_max_distance_ratio 12 = .ok (3 / 2) := by
  constructor
  · exact get_max_distance_ratio_spec.2.1 (-3) (by norm_num)
  · have h := get_max_distance_ratio_spec.1 12 (by norm_num)
    rw [if_neg (by norm_num), if_neg (by norm_num)] at h
    exact h

/-! ## C3: stress computation -/

/-- C3 counterexample: `compute_stress` performs no input validation.  At the
non-positive normal duration `-5` it returns the value `-2` instead of
failing with `InvalidInput`, and at `0` it fails with `ZeroDivisionError`,
not `InvalidInput`. -/
theorem compute_stress_no_validation_cex :
    compute_stress (-5) 10 = .ok (-2) ∧
    compute_stress 0 7 ≠ .error .invalidInput := by
  constructor
  · norm_num [compute_stress]
  · simp [compute_stress]

/-- C3 (amended): `compute_stress(duration, duration_in_traffic)` divides
unconditionally: for `duration = 0` it fails with `ZeroDivisionError`
(not `InvalidInput`), and for every `duration ≠ 0` — including negative
durations — it returns exactly `duration_in_traffic / duration`. -/
theorem compute_stress_spec_amended :
    ∀ duration duration_in_traffic : ℚ,
    (duration = 0 →
      compute_stress duration duration_in_traffic = .error .zeroDivision) ∧
    (duration ≠ 0 →
      compute_stress duration duration_in_traffic =
        .ok (duration_in_traffic / duration)) := by
  intro d t
  constructor <;> intro h <;> simp [compute_stress, h]

theorem compute_stress_spec_amended_witness :
    compute_stress 0 7 = .error .zeroDivision ∧
    compute_stress 2 3 = .ok (3 / 2) := by
  constructor
  · exact (compute_stress_spec_amended 0 7).1 rfl
  · exact (compute_stress_spec_amended 2 3).2 (by norm_num)

/-! ## C9: empty input to select_best_route -/

/-- C9: on the empty route list, `select_best_route` does not return `None`;
it fails (Python's `min` of an empty sequence raises `ValueError`), so
`None` is reserved for the case where no route survives the distance
filter. -/
theorem select_best_route_empty_raises :
    select_best_route [] = .error .emptySequence := rfl

/-! ## C5: destination-point longitude normalization -/

/-- C5 counterexample: the longitude returned by `_destination_point` is NOT
always in `(-180, 180]`.  From origin `(0, 180)` with bearing `0` and
distance `0` the code returns longitude exactly `-180` (the normalization
`((deg + 540) % 360) - 180` maps `180` to `-180`), which is not strictly
greater than `-180`. -/
theorem destination_point_lng_cex :
    (destination_point idTrig 0 180 0 0).2 = -180 ∧
    ¬ (-180 < (destination_point idTrig 0 180 0 0).2) := by
  have h : (destination_point idTrig 0 180 0 0).2 = -180 := by
    norm_num [destination_point, idTrig, pymod]
  exact ⟨h, by rw [h]; norm_num⟩

/-- C5 (amended): for every trigonometry model, origin, bearing and
distance, the longitude returned by `_destination_point` lies in the
half-open interval `[-180, 180)`: at least `-180` and strictly less than
`180` (a geometric longitude of exactly `180` is normalized to `-180`). -/
theorem destination_point_lng_range :
    ∀ (T : TrigModel) (lat lng bearing dist : ℚ),
    -180 ≤ (destination_point T lat lng bearing dist).2 ∧
    (destination_point T lat lng bearing dist).2 < 180 := by
  intro T lat lng bearing dist
  unfold destination_point
  exact pymod_sub_180_range _

/-! ## C6: candidate circle points -/

/-- C6: for `count ≥ 2`, `_candidate_circle_points` returns exactly `count`
points whose bearings are `baseBearing − spread/2 + i × spread/(count−1)`
for `i = 0..count−1` (evenly spaced, inclusive of both ends, in sweep
order), each projected from the pivot by `radiusMeters`; for `count ≤ 1` it
returns exactly one point at `baseBearing`. -/
theorem candidate_circle_points_spec :
    ∀ (T : TrigModel) (origin dest : ℚ × ℚ) (radius : ℚ) (num : ℕ) (spread : ℚ),
    (2 ≤ num →
      (candidate_circle_points T origin dest radius num spread).length = num ∧
      ∀ i : ℕ, i < num →
        (candidate_circle_points T origin dest radius num spread)[i]? =
          some (destination_point T origin.1 origin.2
            (bearing_deg T origin.1 origin.2 dest.1 dest.2 - spread / 2 +
              (i : ℚ) * (spread / ((num : ℚ) - 1))) radius)) ∧
    (num ≤ 1 →
      candidate_circle_points T origin dest radius num spread =
        [destination_point T origin.1 origin.2
          (bearing_deg T origin.1 origin.2 dest.1 dest.2) radius]) := by
  intro T o d rad num spread
  constructor
  · intro h2
    have hnum : ¬ num ≤ 1 := by omega
    have hc : candidate_circle_points T o d rad num spread =
        (List.range num).map (fun i : ℕ => destination_point T o.1 o.2
          (bearing_deg T o.1 o.2 d.1 d.2 - spread / 2 +
            (i : ℚ) * (spread / ((num : ℚ) - 1))) rad) := by
      simp only [candidate_circle_points, if_neg hnum, List.map_map]
      rfl
    constructor
    · rw [hc, List.length_map, List.length_range]
    · intro i hi
      rw [hc, List.getElem?_map, List.getElem?_range hi, Option.map_some']
  · intro h1
    simp [candidate_circle_points, h1]

theorem candidate_circle_points_spec_witness :
    (candidate_circle_points idTrig (0, 0) (0, 1) 1000 3 60).length = 3 ∧
    candidate_circle_points idTrig (0, 0) (0, 1) 1000 1 60 =
      [destination_point idTrig (0, 0).1 (0, 0).2
        (bearing_deg idTrig (0, 0).1 (0, 0).2 (0, 1).1 (0, 1).2) 1000] := by
  constructor
  · exact ((candidate_circle_points_spec idTrig (0, 0) (0, 1) 1000 3 60).1
      (by norm_num)).1
  · exact (candidate_circle_points_spec idTrig (0, 0) (0, 1) 1000 1 60).2
      (by norm_num)

/-! ## C2: distance constraint on selected routes -/

lemma select_step_best_inv (m stress : ℚ) (r' : Route)
    (best : Option (ℚ × ℚ × Route)) (hr' : r'.distance ≤ m)
    (hbest : ∀ s d x, best = some (s, d, x) → x.distance ≤ m) :
    ∀ s d x, select_step_best stress r' best = some (s, d, x) →
      x.distance ≤ m := by
  intro s d x hx
  cases best with
  | none =>
    simp only [select_step_best, Option.some.injEq, Prod.mk.injEq] at hx
    rw [← hx.2.2]; exact hr'
  | some b =>
    obtain ⟨bs, bd, br⟩ := b
    simp only [select_step_best] at hx
    split at hx
    · simp only [Option.some.injEq, Prod.mk.injEq] at hx
      rw [← hx.2.2]; exact hr'
    · simp only [Option.some.injEq, Prod.mk.injEq] at hx
      rw [← hx.2.2]; exact hbest bs bd br rfl

lemma bul_step_best_inv (m stress : ℚ) (r : Route) (best : Option ScoredRoute)
    (hr : r.distance ≤ m) (hbest : ∀ x, best = some x → x.distance ≤ m) :
    ∀ x, bul_step_best stress r best = some x → x.distance ≤ m := by
  intro x hx
  cases best with
  | none =>
    simp only [bul_step_best, Option.some.injEq] at hx
    rw [← hx]; exact hr
  | some b =>
    simp only [bul_step_best] at hx
    split at hx
    · simp only [Option.some.injEq] at hx
      rw [← hx]; exact hr
    · simp only [Option.some.injEq] at hx
      rw [← hx]; exact hbest b rfl

lemma select_loop_bound (m : ℚ) :
    ∀ (rs : List Route) (best : Option (ℚ × ℚ × Route)) (out : List Route)
      (br : Route),
    (∀ s d x, best = some (s, d, x) → x.distance ≤ m) →
    select_loop m rs best = .ok (out, some br) → br.distance ≤ m := by
  intro rs
  induction rs with
  | nil =>
    intro best out br hbest h
    simp only [select_loop, Except.ok.injEq, Prod.mk.injEq] at h
    obtain ⟨-, h2⟩ := h
    cases best with
    | none => simp at h2
    | some b =>
      simp only [Option.map_some', Option.some.injEq] at h2
      exact h2 ▸ hbest b.1 b.2.1 b.2.2 rfl
  | cons r rs ih =>
    intro best out br hbest h
    simp only [select_loop] at h
    split at h
    · -- r.distance > m: the route is skipped
      split at h
      · exact absurd h (by simp)
      · next out' b' heq =>
          simp only [Except.ok.injEq, Prod.mk.injEq] at h
          rw [h.2] at heq
          exact ih best out' br hbest heq
    · -- r.distance ≤ m: the route is scored
      next hd =>
        split at h
        · exact absurd h (by simp)
        · next stress hcs =>
            split at h
            · exact absurd h (by simp)
            · next out' b' heq =>
                simp only [Except.ok.injEq, Prod.mk.injEq] at h
                rw [h.2] at heq
                exact ih _ out' br
                  (select_step_best_inv m stress
                    { r with stress? := some stress, cost? := some stress }
                    best (le_of_not_lt hd) hbest)
                  heq

lemma bul_loop_bound (m : ℚ) :
    ∀ (rs : List Route) (best : Option ScoredRoute) (out : List Route)
      (b : ScoredRoute),
    (∀ x, best = some x → x.distance ≤ m) →
    bul_loop m rs best = .ok (out, some b) → b.distance ≤ m := by
  intro rs
  induction rs with
  | nil =>
    intro best out b hbest h
    simp only [bul_loop, Except.ok.injEq, Prod.mk.injEq] at h
    exact hbest b h.2
  | cons r rs ih =>
    intro best out b hbest h
    simp only [bul_loop] at h
    split at h
    · split at h
      · exact absurd h (by simp)
      · next out' b' heq =>
          simp only [Except.ok.injEq, Prod.mk.injEq] at h
          rw [h.2] at heq
          exact ih best out' b hbest heq
    · next hd =>
        split at h
        · exact absurd h (by simp)
        · next stress hcs =>
            split at h
            · exact absurd h (by simp)
            · next out' b' heq =>
                simp only [Except.ok.injEq, Prod.mk.injEq] at h
                rw [h.2] at heq
                exact ih _ out' b
                  (bul_step_best_inv m stress r best (le_of_not_lt hd) hbest)
                  heq

/-- C2: whenever `select_best_route` returns a route (rather than `None`),
that route's distance is at most `shortestDistance × ratio(shortestDistance
/ 1000)` where `shortestDistance` is the minimum distance of the input; and
whenever the planner's `_best_under_limit` returns a route, its distance is
at most the captured `max_allowed_distance` (derived from the original
baseline list). -/
theorem select_best_distance_bound :
    (∀ (r : Route) (rs out : List Route) (best : Route) (v : ℚ),
      get_max_distance_ratio (min_distance r rs / 1000) = .ok v →
      select_best_route (r :: rs) = .ok (out, some best) →
      best.distance ≤ min_distance r rs * v) ∧
    (∀ (m : ℚ) (routes : List Route) (best : ScoredRoute),
      best_under_limit m routes = .ok (some best) → best.distance ≤ m) := by
  constructor
  · intro r rs out best v hv h
    simp only [select_best_route, hv] at h
    exact select_loop_bound (min_distance r rs * v) (r :: rs) none out best
      (by intro s d x hx; cases hx) h
  · intro m routes best h
    simp only [best_under_limit] at h
    cases hrec : bul_loop m routes none with
    | error e => rw [hrec] at h; simp at h
    | ok p =>
      rw [hrec] at h
      obtain ⟨out', b'⟩ := p
      simp only [Except.ok.injEq] at h
      exact bul_loop_bound m routes none out' best
        (by intro x hx; cases hx) (by rw [hrec, h])

theorem select_best_distance_bound_witness :
    select_best_route
      [{ distance := 10000, duration := 100, duration_in_traffic := 150 },
       { distance := 12000, duration := 100, duration_in_traffic := 105 },
       { distance := 9000, duration := 100, duration_in_traffic := 120 }] =
      .ok ([{ distance := 10000, duration := 100, duration_in_traffic := 150,
              stress? := some (3 / 2), cost? := some (3 / 2) },
            { distance := 12000, duration := 100, duration_in_traffic := 105,
              stress? := some (21 / 20), cost? := some (21 / 20) },
            { distance := 9000, duration := 100, duration_in_traffic := 120,
              stress? := some (6 / 5), cost? := some (6 / 5) }],
        some { distance := 12000, duration := 100, duration_in_traffic := 105,
               stress? := some (21 / 20), cost? := some (21 / 20) }) ∧
    Route.distance
      { distance := 12000, duration := 100, duration_in_traffic := 105,
        stress? := some (21 / 20), cost? := some (21 / 20) } ≤
      min_distance { distance := 10000, duration := 100, duration_in_traffic := 150 }
        [{ distance := 12000, duration := 100, duration_in_traffic := 105 },
         { distance := 9000, duration := 100, duration_in_traffic := 120 }] *
        (17 / 10) := by
  refine ⟨?_, ?_⟩
  · norm_num [select_best_route, min_distance, get_max_distance_ratio, select_loop,
      select_step_best, compute_stress, is_better, STRESS_EPSILON, abs_le]
  · exact select_best_distance_bound.1
      { distance := 10000, duration := 100, duration_in_traffic := 150 }
      [{ distance := 12000, duration := 100, duration_in_traffic := 105 },
       { distance := 9000, duration := 100, duration_in_traffic := 120 }]
      [{ distance := 10000, duration := 100, duration_in_traffic := 150,
         stress? := some (3 / 2), cost? := some (3 / 2) },
       { distance := 12000, duration := 100, duration_in_traffic := 105,
         stress? := some (21 / 20), cost? := some (21 / 20) },
       { distance := 9000, duration := 100, duration_in_traffic := 120,
         stress? := some (6 / 5), cost? := some (6 / 5) }]
      { distance := 12000, duration := 100, duration_in_traffic := 105,
        stress? := some (21 / 20), cost? := some (21 / 20) }
      (17 / 10)
      (by norm_num [min_distance, get_max_distance_ratio])
      (by norm_num [select_best_route, min_distance, get_max_distance_ratio, select_loop,
        select_step_best, compute_stress, is_better, STRESS_EPSILON, abs_le])

/-! ## C10: frame effects of scoring -/

lemma select_loop_frame (m : ℚ) :
    ∀ (rs : List Route) (best : Option (ℚ × ℚ × Route)) (out : List Route)
      (b : Option Route),
    select_loop m rs best = .ok (out, b) →
    List.Forall₂ (fun x x' =>
      (x.distance > m → x' = x) ∧
      (¬ x.distance > m →
        ∃ s, compute_stress x.duration x.duration_in_traffic = .ok s ∧
          x' = { x with stress? := some s, cost? := some s })) rs out := by
  intro rs
  induction rs with
  | nil =>
    intro best out b h
    simp only [select_loop, Except.ok.injEq, Prod.mk.injEq] at h
    rw [← h.1]
    exact List.Forall₂.nil
  | cons r rs ih =>
    intro best out b h
    simp only [select_loop] at h
    split at h
    · next hd =>
        split at h
        · exact absurd h (by simp)
        · next out' b' heq =>
            simp only [Except.ok.injEq, Prod.mk.injEq] at h
            rw [← h.1]
            exact List.Forall₂.cons
              ⟨fun _ => rfl, fun hnd => absurd hd hnd⟩
              (ih best out' b' heq)
    · next hd =>
        split at h
        · exact absurd h (by simp)
        · next stress hcs =>
            split at h
            · exact absurd h (by simp)
            · next out' b' heq =>
                simp only [Except.ok.injEq, Prod.mk.injEq] at h
                rw [← h.1]
                exact List.Forall₂.cons
                  ⟨fun hgt => absurd hgt hd, fun _ => ⟨stress, hcs, rfl⟩⟩
                  (ih _ out' b' heq)

lemma bul_loop_frame (m : ℚ) :
    ∀ (rs : List Route) (best : Option ScoredRoute) (out : List Route)
      (b : Option ScoredRoute),
    bul_loop m rs best = .ok (out, b) → out = rs := by
  intro rs
  induction rs with
  | nil =>
    intro best out b h
    simp only [bul_loop, Except.ok.injEq, Prod.mk.injEq] at h
    exact h.1.symm
  | cons r rs ih =>
    intro best out b h
    simp only [bul_loop] at h
    split at h
    · split at h
      · exact absurd h (by simp)
      · next out' b' heq =>
          simp only [Except.ok.injEq, Prod.mk.injEq] at h
          rw [← h.1, ih best out' b' heq]
    · split at h
      · exact absurd h (by simp)
      · next stress hcs =>
          split at h
          · exact absurd h (by simp)
          · next out' b' heq =>
              simp only [Except.ok.injEq, Prod.mk.injEq] at h
              rw [← h.1, ih _ out' b' heq]

/-- C10: `select_best_route` attaches the derived `stress`/`cost` fields
exactly to the routes whose distance is within the allowed maximum; a route
over the maximum is passed through completely unmodified.  The planner's
`_best_under_limit` loop returns every input route exactly as it received
it (it builds a fresh scored record for the running best instead of
mutating). -/
theorem scoring_frame_effect :
    (∀ (r : Route) (rs : List Route) (v : ℚ) (out : List Route)
       (b : Option Route),
      get_max_distance_ratio (min_distance r rs / 1000) = .ok v →
      select_best_route (r :: rs) = .ok (out, b) →
      List.Forall₂ (fun x x' =>
        (x.distance > min_distance r rs * v → x' = x) ∧
        (¬ x.distance > min_distance r rs * v →
          ∃ s, compute_stress x.duration x.duration_in_traffic = .ok s ∧
            x' = { x with stress? := some s, cost? := some s }))
        (r :: rs) out) ∧
    (∀ (m : ℚ) (routes out : List Route) (b : Option ScoredRoute),
      bul_loop m routes none = .ok (out, b) → out = routes) := by
  constructor
  · intro r rs v out b hv h
    simp only [select_best_route, hv] at h
    exact select_loop_frame (min_distance r rs * v) (r :: rs) none out b h
  · intro m routes out b h
    exact bul_loop_frame m routes none out b h

theorem scoring_frame_effect_witness :
    select_best_route [{ distance := 1000, duration := 10, duration_in_traffic := 12 }] =
      .ok ([{ distance := 1000, duration := 10, duration_in_traffic := 12,
              stress? := some (6 / 5), cost? := some (6 / 5) }],
        some { distance := 1000, duration := 10, duration_in_traffic := 12,
               stress? := some (6 / 5), cost? := some (6 / 5) }) ∧
    List.Forall₂ (fun x x' =>
      (Route.distance x >
          min_distance { distance := 1000, duration := 10, duration_in_traffic := 12 } [] * 2 →
        x' = x) ∧
      (¬ Route.distance x >
          min_distance { distance := 1000, duration := 10, duration_in_traffic := 12 } [] * 2 →
        ∃ s, compute_stress x.duration x.duration_in_traffic = .ok s ∧
          x' = { x with stress? := some s, cost? := some s }))
      [{ distance := 1000, duration := 10, duration_in_traffic := 12 }]
      [{ distance := 1000, duration := 10, duration_in_traffic := 12,
         stress? := some (6 / 5), cost? := some (6 / 5) }] := by
  refine ⟨?_, ?_⟩
  · norm_num [select_best_route, min_distance, get_max_distance_ratio, select_loop,
      select_step_best, compute_stress, is_better, STRESS_EPSILON, abs_le]
  · exact scoring_frame_effect.1
      { distance := 1000, duration := 10, duration_in_traffic := 12 } [] 2
      [{ distance := 1000, duration := 10, duration_in_traffic := 12,
         stress? := some (6 / 5), cost? := some (6 / 5) }]
      (some { distance := 1000, duration := 10, duration_in_traffic := 12,
              stress? := some (6 / 5), cost? := some (6 / 5) })
      (by norm_num [min_distance, get_max_distance_ratio])
      (by norm_num [select_best_route, min_distance, get_max_distance_ratio, select_loop,
        select_step_best, compute_stress, is_better, STRESS_EPSILON, abs_le])

/-! ## C7: baseline fallback -/

lemma bul_loop_no_error (m : ℚ) :
    ∀ (rs : List Route) (best : Option ScoredRoute),
    (∀ y ∈ rs, y.duration ≠ 0) →
    ∃ p, bul_loop m rs best = .ok p := by
  intro rs
  induction rs with
  | nil => intro best _; exact ⟨([], best), rfl⟩
  | cons r rs ih =>
    intro best hdur
    by_cases hd : r.distance > m
    · obtain ⟨p, hp⟩ := ih best (fun y hy => hdur y (List.mem_cons_of_mem _ hy))
      exact ⟨(r :: p.1, p.2), by simp [bul_loop, if_pos hd, hp]⟩
    · have hne : r.duration ≠ 0 := hdur r (List.mem_cons_self _ _)
      have hcs : compute_stress r.duration r.duration_in_traffic =
          .ok (r.duration_in_traffic / r.duration) := by
        simp [compute_stress, hne]
      obtain ⟨p, hp⟩ :=
        ih (bul_step_best (r.duration_in_traffic / r.duration) r best)
          (fun y hy => hdur y (List.mem_cons_of_mem _ hy))
      exact ⟨(r :: p.1, p.2), by simp [bul_loop, if_neg hd, hcs, hp]⟩

lemma pymin_fold_spec :
    ∀ (rs : List Route) (r : Route),
    (rs.foldl (fun m x => if x.distance < m.distance then x else m) r) ∈ r :: rs ∧
    (rs.foldl (fun m x => if x.distance < m.distance then x else m) r).distance =
      min_distance r rs := by
  intro rs
  induction rs with
  | nil => intro r; exact ⟨List.mem_singleton_self r, rfl⟩
  | cons a rs ih =>
    intro r
    have hfold : (a :: rs).foldl (fun m x => if x.distance < m.distance then x else m) r =
        rs.foldl (fun m x => if x.distance < m.distance then x else m)
          (if a.distance < r.distance then a else r) := by
      rw [List.foldl_cons]
    have hmin : min_distance r (a :: rs) =
        rs.foldl (fun m x => min m x.distance)
          ((if a.distance < r.distance then a else r).distance) := by
      unfold min_distance
      rw [List.foldl_cons]
      by_cases hc : a.distance < r.distance
      · rw [if_pos hc, min_eq_right hc.le]
      · rw [if_neg hc, min_eq_left (le_of_not_lt hc)]
    obtain ⟨hmem, hdist⟩ := ih (if a.distance < r.distance then a else r)
    constructor
    · rw [hfold]
      rcases List.mem_cons.mp hmem with h | h
      · rw [h]
        by_cases hc : a.distance < r.distance
        · rw [if_pos hc]; exact List.mem_cons_of_mem _ (List.mem_cons_self _ _)
        · rw [if_neg hc]; exact List.mem_cons_self _ _
      · exact List.mem_cons_of_mem _ (List.mem_cons_of_mem _ h)
    · rw [hfold, hdist, hmin]
      rfl

/-- C7: when no baseline route satisfies the distance constraint
(`_best_under_limit` returns `None`), the planner falls back to the first
route with globally minimum distance among the baseline routes, attaches its
stress, and uses it as `currentBest`; consequently, for any non-empty
baseline list (with well-defined stresses), the search starts with a defined
`currentBest`. -/
theorem baseline_fallback_spec :
    (∀ (m : ℚ) (r : Route) (rs : List Route) (x : Route) (s : ℚ),
      best_under_limit m (r :: rs) = .ok none →
      pymin_by_distance (r :: rs) = .ok x →
      compute_stress x.duration x.duration_in_traffic = .ok s →
      baseline_current_best m (r :: rs) =
        .ok ⟨x.distance, x.duration, x.duration_in_traffic, s, s⟩) ∧
    (∀ (r : Route) (rs : List Route) (x : Route),
      pymin_by_distance (r :: rs) = .ok x →
      x ∈ r :: rs ∧ x.distance = min_distance r rs) ∧
    (∀ (m : ℚ) (r : Route) (rs : List Route),
      (∀ y ∈ r :: rs, y.duration ≠ 0) →
      ∃ b, baseline_current_best m (r :: rs) = .ok b) := by
  refine ⟨?_, ?_, ?_⟩
  · intro m r rs x s h1 h2 h3
    simp only [baseline_current_best, h1, h2, h3]
  · intro r rs x hx
    simp only [pymin_by_distance, Except.ok.injEq] at hx
    rw [← hx]
    exact pymin_fold_spec rs r
  · intro m r rs hdur
    obtain ⟨p, hp⟩ := bul_loop_no_error m (r :: rs) none hdur
    obtain ⟨out, b⟩ := p
    cases b with
    | some bb =>
      exact ⟨bb, by simp [baseline_current_best, best_under_limit, hp]⟩
    | none =>
      obtain ⟨hmem, -⟩ := pymin_fold_spec rs r
      have hne := hdur _ hmem
      refine ⟨⟨(rs.foldl (fun m x => if x.distance < m.distance then x else m) r).distance,
        (rs.foldl (fun m x => if x.distance < m.distance then x else m) r).duration,
        (rs.foldl (fun m x => if x.distance < m.distance then x else m) r).duration_in_traffic,
        (rs.foldl (fun m x => if x.distance < m.distance then x else m) r).duration_in_traffic /
          (rs.foldl (fun m x => if x.distance < m.distance then x else m) r).duration,
        (rs.foldl (fun m x => if x.distance < m.distance then x else m) r).duration_in_traffic /
          (rs.foldl (fun m x => if x.distance < m.distance then x else m) r).duration⟩, ?_⟩
      simp [baseline_current_best, best_under_limit, hp, pymin_by_distance,
        compute_stress, hne]

theorem baseline_fallback_spec_witness :
    best_under_limit 5
      [{ distance := 10, duration := 4, duration_in_traffic := 6 },
       { distance := 20, duration := 4, duration_in_traffic := 8 }] = .ok none ∧
    baseline_current_best 5
      [{ distance := 10, duration := 4, duration_in_traffic := 6 },
       { distance := 20, duration := 4, duration_in_traffic := 8 }] =
      .ok ⟨10, 4, 6, 3 / 2, 3 / 2⟩ := by
  have h1 : best_under_limit 5
      [{ distance := 10, duration := 4, duration_in_traffic := 6 },
       { distance := 20, duration := 4, duration_in_traffic := 8 }] = .ok none := by
    norm_num [best_under_limit, bul_loop]
  refine ⟨h1, ?_⟩
  exact baseline_fallback_spec.1 5
    { distance := 10, duration := 4, duration_in_traffic := 6 }
    [{ distance := 20, duration := 4, duration_in_traffic := 8 }]
    { distance := 10, duration := 4, duration_in_traffic := 6 }
    (3 / 2) h1 (by norm_num [pymin_by_distance]) (by norm_num [compute_stress])

/-! ## C8: a round where every trial-best is None -/

lemma scan_candidates_all_none (oracle : Oracle) (m : ℚ) (chosen : List (ℚ × ℚ)) :
    ∀ (cands : List (ℚ × ℚ)) (best : ScoredRoute)
      (track : Option ((ℚ × ℚ) × List (ℚ × ℚ))),
    (∀ c ∈ cands, ∃ tr,
      oracle (some (chosen ++ [format_latlng c.1 c.2])) = .ok tr ∧
      best_under_limit m tr = .ok none) →
    scan_candidates oracle m chosen cands best track = .ok (best, track) := by
  intro cands
  induction cands with
  | nil => intro best track _; rfl
  | cons c cs ih =>
    intro best track hall
    obtain ⟨tr, h1, h2⟩ := hall c (List.mem_cons_self _ _)
    simp only [scan_candidates, h1, h2]
    exact ih best track (fun x hx => hall x (List.mem_cons_of_mem _ hx))

/-- C8: in any round where every candidate's trial selection yields `None`
(the oracle returns, for each candidate, a route list in which no route
survives the distance constraint — including the empty list), the search
leaves `chosenWaypoints` and `currentBest` exactly as they were at the start
of the round and terminates there, however many rounds were still
allowed. -/
theorem all_none_round_frame :
    ∀ (T : TrigModel) (oracle : Oracle) (m rad : ℚ) (num : ℕ) (spread : ℚ)
      (dest : ℚ × ℚ) (n : ℕ) (chosen : List (ℚ × ℚ)) (pivot : ℚ × ℚ)
      (best : ScoredRoute),
    (∀ c ∈ candidate_circle_points T pivot dest rad num spread, ∃ tr,
      oracle (some (chosen ++ [format_latlng c.1 c.2])) = .ok tr ∧
      best_under_limit m tr = .ok none) →
    search_rounds T oracle m rad num spread dest (n + 1) chosen pivot best =
      .ok (chosen, best) := by
  intro T oracle m rad num spread dest n chosen pivot best hall
  simp only [search_rounds]
  rw [scan_candidates_all_none oracle m chosen
    (candidate_circle_points T pivot dest rad num spread) best none hall]

theorem all_none_round_frame_witness :
    search_rounds idTrig (fun _ => .ok []) 100 1000 2 60 (0, 1) 1 [] (0, 0)
      ⟨1000, 1000, 1000, 1, 1⟩ = .ok ([], ⟨1000, 1000, 1000, 1, 1⟩) :=
  all_none_round_frame idTrig (fun _ => .ok []) 100 1000 2 60 (0, 1) 0 [] (0, 0)
    ⟨1000, 1000, 1000, 1, 1⟩ (fun _ _ => ⟨[], rfl, rfl⟩)

/-! ## C1: stress drift across the greedy search -/

lemma is_better_stress_le (sa da sb db eps : ℚ) (heps : 0 ≤ eps)
    (h : is_better sa da sb db eps = true) : sa ≤ sb + eps := by
  unfold is_better at h
  split_ifs at h with h1 h2
  · linarith
  · have := abs_le.mp h2.1
    linarith

lemma candidate_circle_points_length (T : TrigModel) (p d : ℚ × ℚ)
    (rad : ℚ) (num : ℕ) (spread : ℚ) :
    (candidate_circle_points T p d rad num spread).length = max 1 num := by
  by_cases h : num ≤ 1
  · simp only [candidate_circle_points, if_pos h, List.map_cons, List.map_nil,
      List.length_cons, List.length_nil]
    omega
  · simp only [candidate_circle_points, if_neg h, List.map_map,
      List.length_map, List.length_range]
    omega

lemma scan_candidates_stress_bound (oracle : Oracle) (m : ℚ)
    (chosen : List (ℚ × ℚ)) :
    ∀ (cands : List (ℚ × ℚ)) (best : ScoredRoute)
      (track : Option ((ℚ × ℚ) × List (ℚ × ℚ)))
      (best' : ScoredRoute) (track' : Option ((ℚ × ℚ) × List (ℚ × ℚ))),
    scan_candidates oracle m chosen cands best track = .ok (best', track') →
    best'.stress ≤ best.stress + (cands.length : ℚ) * STRESS_EPSILON := by
  intro cands
  induction cands with
  | nil =>
    intro best track best' track' h
    simp only [scan_candidates, Except.ok.injEq, Prod.mk.injEq] at h
    rw [← h.1]
    simp
  | cons c cs ih =>
    intro best track best' track' h
    have heps : (0 : ℚ) ≤ STRESS_EPSILON := by norm_num [STRESS_EPSILON]
    have hlen : ((c :: cs).length : ℚ) = (cs.length : ℚ) + 1 := by
      push_cast [List.length_cons]; ring
    simp only [scan_candidates] at h
    split at h
    · exact absurd h (by simp)
    · split at h
      · exact absurd h (by simp)
      · -- trial best is None: candidate skipped
        have hcs := ih best track best' track' h
        have hnn : (0 : ℚ) ≤ (cs.length : ℚ) := by positivity
        rw [hlen]
        nlinarith
      · -- trial best is some tb
        next tb hbul =>
          split at h
          · -- improvement accepted: current best becomes tb
            next hib =>
              have hstep := is_better_stress_le tb.stress tb.distance
                best.stress best.distance STRESS_EPSILON heps hib
              have hrest := ih tb _ best' track' h
              rw [hlen]
              nlinarith
          · have hcs := ih best track best' track' h
            have hnn : (0 : ℚ) ≤ (cs.length : ℚ) := by positivity
            rw [hlen]
            nlinarith

lemma search_rounds_stress_bound (T : TrigModel) (oracle : Oracle)
    (m rad : ℚ) (num : ℕ) (spread : ℚ) (dest : ℚ × ℚ) :
    ∀ (n : ℕ) (chosen : List (ℚ × ℚ)) (pivot : ℚ × ℚ) (best : ScoredRoute)
      (chosen' : List (ℚ × ℚ)) (best' : ScoredRoute),
    search_rounds T oracle m rad num spread dest n chosen pivot best =
      .ok (chosen', best') →
    best'.stress ≤ best.stress + ((n * max 1 num : ℕ) : ℚ) * STRESS_EPSILON := by
  intro n
  induction n with
  | zero =>
    intro chosen pivot best chosen' best' h
    simp only [search_rounds, Except.ok.injEq, Prod.mk.injEq] at h
    rw [← h.2]
    simp
  | succ n ih =>
    intro chosen pivot best chosen' best' h
    have heps : (0 : ℚ) ≤ STRESS_EPSILON := by norm_num [STRESS_EPSILON]
    have hK : ((max 1 num : ℕ) : ℚ) =
        ((candidate_circle_points T pivot dest rad num spread).length : ℚ) := by
      rw [candidate_circle_points_length]
    have hcast : (((n + 1) * max 1 num : ℕ) : ℚ) =
        ((n * max 1 num : ℕ) : ℚ) + ((max 1 num : ℕ) : ℚ) := by
      push_cast; ring
    simp only [search_rounds] at h
    split at h
    · exact absurd h (by simp)
    · -- no candidate improved: the round breaks
      next bestMid heq =>
        simp only [Except.ok.injEq, Prod.mk.injEq] at h
        have hscan := scan_candidates_stress_bound oracle m chosen _ best none
          bestMid none heq
        rw [← hK] at hscan
        have hnn : (0 : ℚ) ≤ ((n * max 1 num : ℕ) : ℚ) * STRESS_EPSILON :=
          mul_nonneg (by positivity) heps
        rw [← h.2, hcast, add_mul]
        linarith
    · -- the round accepted the tracked candidate
      next bestMid c w heq =>
        have hscan := scan_candidates_stress_bound oracle m chosen _ best none
          bestMid (some (c, w)) heq
        rw [← hK] at hscan
        have hrest := ih w c bestMid chosen' best' h
        rw [hcast, add_mul]
        linarith

/-- C1 counterexample: across two accepted waypoints the final stress can
exceed the baseline stress by more than the epsilon tolerance.  With a
single candidate per round and two rounds, the deterministic oracle below
yields a run whose accepted trials have stresses `1025/1024 = 1.0009765625`
and then `1026/1024 = 1.001953125` (each exactly `2⁻¹⁰` above the previous
best — strictly inside the epsilon band — and strictly shorter), so the
returned stress `1.001953125` exceeds the baseline stress `1` plus
`epsilon = 0.001` by about `0.00095`.  All stresses are small multiples of
`2⁻¹⁰` obtained by dividing by the power-of-two duration `1024`, so every
division, subtraction, and absolute value in this run is exact in IEEE
doubles as well, and every comparison (`2⁻¹⁰ < 10⁻³ < 2·2⁻¹⁰`, with margins
around `2·10⁻⁵`) is decided identically by the source's double arithmetic
and by this rational model. -/
def stress_cex_oracle : Oracle := fun w =>
  match w with
  | none => .ok [{ distance := 1000, duration := 1024, duration_in_traffic := 1024 }]
  | some l =>
    if l.length = 1 then
      .ok [{ distance := 900, duration := 1024, duration_in_traffic := 1025 }]
    else
      .ok [{ distance := 800, duration := 1024, duration_in_traffic := 1026 }]

theorem stress_monotonic_cex :
    plan_relaxed_route_with_waypoints idTrig stress_cex_oracle (0, 0) (0, 1)
      1000 1 60 2 =
      .ok ⟨⟨800, 1024, 1026, 513 / 512, 513 / 512⟩, [(0, 0), (0, 0)], 2000, 1000⟩ ∧
    baseline_current_best 2000
      [{ distance := 1000, duration := 1024, duration_in_traffic := 1024 }] =
      .ok ⟨1000, 1024, 1024, 1, 1⟩ ∧
    ¬ ((513 : ℚ) / 512 ≤ 1 + STRESS_EPSILON) := by
  refine ⟨?_, ?_, ?_⟩
  · norm_num [plan_relaxed_route_with_waypoints, search_rounds, scan_candidates,
      candidate_circle_points, bearing_deg, destination_point, format_latlng,
      round6, pymod, idTrig, stress_cex_oracle, baseline_current_best,
      best_under_limit, bul_loop, bul_step_best, compute_stress, is_better,
      get_max_distance_ratio, min_distance, pymin_by_distance, STRESS_EPSILON,
      abs_le]
  · norm_num [baseline_current_best, best_under_limit, bul_loop, bul_step_best,
      compute_stress, is_better, STRESS_EPSILON, abs_le]
  · norm_num [STRESS_EPSILON]

/-- C1 (amended): the stress of the returned route is bounded by the
baseline (or fallback) stress plus `maxWaypoints × candidatesPerRound ×
epsilon`, where `candidatesPerRound = max 1 candidates_per_step` — each
accepted improvement can raise the running stress by up to epsilon, and one
round can accept up to one waypoint after up to `candidatesPerRound`
in-round improvements.  The original single-epsilon bound holds only for a
single accepted improvement. -/
theorem stress_drift_bound :
    ∀ (T : TrigModel) (oracle : Oracle) (o d : ℚ × ℚ) (rad : ℚ) (num : ℕ)
      (spread : ℚ) (maxW : ℕ) (res : PlanResult) (r : Route) (rs : List Route)
      (v : ℚ) (b0 : ScoredRoute),
    oracle none = .ok (r :: rs) →
    get_max_distance_ratio (min_distance r rs / 1000) = .ok v →
    baseline_current_best (min_distance r rs * v) (r :: rs) = .ok b0 →
    plan_relaxed_route_with_waypoints T oracle o d rad num spread maxW = .ok res →
    res.best.stress ≤ b0.stress + ((maxW * max 1 num : ℕ) : ℚ) * STRESS_EPSILON := by
  intro T oracle o d rad num spread maxW res r rs v b0 ho hv hb0 h
  simp only [plan_relaxed_route_with_waypoints, ho, hv, hb0] at h
  split at h
  · exact absurd h (by simp)
  · next chosen best heq =>
      simp only [Except.ok.injEq] at h
      rw [← h]
      exact search_rounds_stress_bound T oracle (min_distance r rs * v) rad num
        spread d maxW [] o b0 chosen best heq

theorem stress_drift_bound_witness :
    (fun w => match w with
      | none => .ok [{ distance := 1000, duration := 1000, duration_in_traffic := 1000 }]
      | some _ => .ok ([] : List Route) : Oracle) none =
      .ok [{ distance := 1000, duration := 1000, duration_in_traffic := 1000 }] ∧
    plan_relaxed_route_with_waypoints idTrig
      (fun w => match w with
        | none => .ok [{ distance := 1000, duration := 1000, duration_in_traffic := 1000 }]
        | some _ => .ok ([] : List Route)) (0, 0) (0, 1) 1000 1 60 2 =
      .ok ⟨⟨1000, 1000, 1000, 1, 1⟩, [], 2000, 1000⟩ ∧
    ScoredRoute.stress ⟨1000, 1000, 1000, 1, 1⟩ ≤
      ScoredRoute.stress ⟨1000, 1000, 1000, 1, 1⟩ +
        ((2 * max 1 1 : ℕ) : ℚ) * STRESS_EPSILON := by
  have hplan : plan_relaxed_route_with_waypoints idTrig
      (fun w => match w with
        | none => .ok [{ distance := 1000, duration := 1000, duration_in_traffic := 1000 }]
        | some _ => .ok ([] : List Route)) (0, 0) (0, 1) 1000 1 60 2 =
      .ok ⟨⟨1000, 1000, 1000, 1, 1⟩, [], 2000, 1000⟩ := by
    norm_num [plan_relaxed_route_with_waypoints, search_rounds, scan_candidates,
      candidate_circle_points, bearing_deg, destination_point, format_latlng,
      round6, pymod, idTrig, baseline_current_best, best_under_limit, bul_loop,
      bul_step_best, compute_stress, is_better, get_max_distance_ratio,
      min_distance, pymin_by_distance, STRESS_EPSILON, abs_le]
  refine ⟨rfl, hplan, ?_⟩
  exact stress_drift_bound idTrig
    (fun w => match w with
      | none => .ok [{ distance := 1000, duration := 1000, duration_in_traffic := 1000 }]
      | some _ => .ok ([] : List Route)) (0, 0) (0, 1) 1000 1 60 2
    ⟨⟨1000, 1000, 1000, 1, 1⟩, [], 2000, 1000⟩
    { distance := 1000, duration := 1000, duration_in_traffic := 1000 } [] 2
    ⟨1000, 1000, 1000, 1, 1⟩ rfl
    (by norm_num [min_distance, get_max_distance_ratio])
    (by norm_num [baseline_current_best, best_under_limit, bul_loop,
      bul_step_best, compute_stress, min_distance, is_better, STRESS_EPSILON])
    hplan

end BikersMap
